import Mathlib

/-!
Shallow embedding of the Dewp ETL pipeline
(`src/dewp/transformers/dewp_transformers.py`).

Data model: a pandas `DataFrame` is a `Relation`: an ordered list of column
names together with positional rows.  A cell (`Value`) is either a number
(`vnum`, integers standing in for pandas numerics), a string (`vstr`), or the
missing value NaN (`vnan`), which pandas introduces through `pd.concat`
column alignment, empty CSV cells, and `pd.to_numeric(errors='coerce')`.

Fallible pandas operations (`.loc` column projection with a missing label,
`df[col]` on a missing column, `query` comparing a string cell against a
numeric literal, ...) are embedded as `Except String` computations, so a
Python exception is `.error` and normal completion is `.ok`.
-/

inductive Value where
  | vnum (n : Int)
  | vstr (s : String)
  | vnan
deriving DecidableEq, Repr

structure Relation where
  columns : List String
  rows : List (List Value)
deriving DecidableEq, Repr

/-- `DataFrame.empty`: true when any axis has length 0 (no rows or no columns). -/
def Relation.isEmpty (df : Relation) : Bool :=
  df.rows.isEmpty || df.columns.isEmpty

instance {ε α : Type} [DecidableEq ε] [DecidableEq α] : DecidableEq (Except ε α) := fun a b =>
  match a, b with
  | .ok x, .ok y => decidable_of_iff (x = y) (by simp)
  | .error x, .error y => decidable_of_iff (x = y) (by simp)
  | .ok _, .error _ => isFalse (by simp)
  | .error _, .ok _ => isFalse (by simp)

/-- The numeric value of a decimal digit. -/
def digitVal (c : Char) : Option Nat :=
  if c = '0' then some 0 else if c = '1' then some 1 else if c = '2' then some 2
  else if c = '3' then some 3 else if c = '4' then some 4 else if c = '5' then some 5
  else if c = '6' then some 6 else if c = '7' then some 7 else if c = '8' then some 8
  else if c = '9' then some 9 else none

/-- A non-empty run of decimal digits as a number; `none` on anything else. -/
def parseDigits : List Char → Option Nat
  | [] => none
  | [c] => digitVal c
  | c :: rest =>
    match digitVal c, parseDigits rest with
    | some d, some n => some (d * 10 ^ rest.length + n)
    | _, _ => none

/-- An optionally negated decimal integer literal; `none` on anything else.
Integer literals stand in for the numeric parsing pandas performs both in
`pd.to_numeric` and when `query` reads the threshold literal. -/
def parseIntLit (s : String) : Option Int :=
  match s.data with
  | '-' :: rest => (parseDigits rest).map (fun n => -(n : Int))
  | l => (parseDigits l).map (fun n => (n : Int))

/-- Error-propagating `mapM` over `Except String`, written out recursively so
that proofs can unfold it step by step. -/
def mapME {α β : Type} (f : α → Except String β) : List α → Except String (List β)
  | [] => .ok []
  | a :: l =>
    match f a with
    | .error e => .error e
    | .ok b =>
      match mapME f l with
      | .error e => .error e
      | .ok l' => .ok (b :: l')

/-- Position of a column label in a schema; `KeyError` when absent
(first occurrence wins, as in pandas label lookup). -/
def lookupIdx (cols : List String) (c : String) : Except String Nat :=
  match cols with
  | [] => .error ("KeyError: " ++ c)
  | c0 :: rest =>
    if c0 = c then .ok 0
    else
      match lookupIdx rest c with
      | .ok i => .ok (i + 1)
      | .error e => .error e

/-- `pd.to_numeric(·, errors='coerce')` on one cell: numbers pass through,
strings are parsed (integer literals stand in for pandas numeric parsing),
NaN and unparsable strings give NaN (`none`). -/
def toNumericOpt : Value → Option Int
  | .vnum n => some n
  | .vstr s => parseIntLit s
  | .vnan => none

/-- One cell of a projected row. -/
def projectCell (row : List Value) (i : Nat) : Except String Value :=
  match row.get? i with
  | some v => .ok v
  | none => .error "IndexError: row shorter than schema"

/-- `data_frame.loc[:, src_columns]`: keep exactly the configured columns in
the configured order; any configured label absent from the schema is a
`KeyError` (raised by pandas even when there are zero rows). -/
def projectColumns (srcCols : List String) (df : Relation) : Except String Relation :=
  match mapME (lookupIdx df.columns) srcCols with
  | .error e => .error e
  | .ok idxs =>
    match mapME (fun row => mapME (projectCell row) idxs) df.rows with
    | .error e => .error e
    | .ok rows => .ok ⟨srcCols, rows⟩

/-- The coerced cell: `pd.to_numeric(errors='coerce')` followed by `fillna(0)`. -/
def coerceCell (v : Value) : Value :=
  .vnum ((toNumericOpt v).getD 0)

/-- `data_frame[src_col_value] = pd.to_numeric(data_frame[src_col_value],
errors='coerce')` followed by `.fillna(0)`: rewrite the value column in
place, every non-numeric entry becoming 0; `KeyError` when the column is
absent from the schema. -/
def coerceValueColumn (vc : String) (df : Relation) : Except String Relation :=
  match lookupIdx df.columns vc with
  | .error e => .error e
  | .ok iv =>
    .ok ⟨df.columns, df.rows.map (fun row => row.set iv (coerceCell (row.getD iv .vnan)))⟩

/-- One row of `query(year + '>=' + filter)`: a numeric year cell is compared
against the threshold, a NaN year compares false (the row is dropped without
error, as NaN comparisons are in pandas), and a string year raises
`TypeError` (string `>=` int is unsupported). -/
def filterYearRows (iy : Nat) (t : Int) : List (List Value) → Except String (List (List Value))
  | [] => .ok []
  | row :: rest =>
    match row.getD iy .vnan with
    | .vnum n =>
      (match filterYearRows iy t rest with
       | .error e => .error e
       | .ok kept => .ok (if t ≤ n then row :: kept else kept))
    | .vnan =>
      (match filterYearRows iy t rest with
       | .error e => .error e
       | .ok kept => .ok kept)
    | .vstr _ => .error "TypeError: >= not supported between str and int"

/-- `data_frame.query(src_col_year + '>=' + src_col_year_filter)`: the year
column is looked up in the schema and the filter string is read as a numeric
literal (a non-numeric filter string is an undefined name for the query
engine). -/
def filterYear (yc fs : String) (df : Relation) : Except String Relation :=
  match lookupIdx df.columns yc with
  | .error e => .error e
  | .ok iy =>
    match parseIntLit fs with
    | none => .error ("UndefinedVariableError: name " ++ fs ++ " is not defined")
    | some t =>
      match filterYearRows iy t df.rows with
      | .error e => .error e
      | .ok kept => .ok ⟨df.columns, kept⟩

/-- The grouping key of a row: the (year, aggregation, code) cells. -/
def rowKey (iy ia ic : Nat) (row : List Value) : Value × Value × Value :=
  (row.getD iy .vnan, row.getD ia .vnan, row.getD ic .vnan)

/-- `groupby` with the default `dropna=True` keeps only groups whose key has
no NaN component. -/
def keyNoNan (k : Value × Value × Value) : Bool :=
  k.1 ≠ Value.vnan ∧ k.2.1 ≠ Value.vnan ∧ k.2.2 ≠ Value.vnan

/-- A value-column cell as consumed by the `min`/`max` aggregation (after
coercion every such cell is numeric; anything else is a `TypeError`). -/
def cellNum (iv : Nat) (row : List Value) : Except String Int :=
  match row.getD iv .vnan with
  | .vnum n => .ok n
  | _ => .error "TypeError: non-numeric value in min/max aggregation"

/-- The aggregated output row of one group: the three key cells followed by
`min_value` and `max_value` over the group's value cells. -/
def groupAgg (iy ia ic iv : Nat) (rows : List (List Value))
    (k : Value × Value × Value) : Except String (List Value) :=
  match mapME (cellNum iv) (rows.filter (fun r => rowKey iy ia ic r = k)) with
  | .error e => .error e
  | .ok [] => .error "empty group"
  | .ok (v :: vs) =>
    .ok [k.1, k.2.1, k.2.2, .vnum (vs.foldl min v), .vnum (vs.foldl max v)]

/-- The grouped rows: one output row per distinct NaN-free key among the
input rows (`dropna=True`); pandas sorts the keys (`sort=True`) but row
order carries no meaning here, so first/last-seen order is used. -/
def groupMinMaxRows (iy ia ic iv : Nat) (rows : List (List Value)) :
    Except String (List (List Value)) :=
  mapME (groupAgg iy ia ic iv rows)
    (((rows.map (rowKey iy ia ic)).filter keyNoNan).dedup)

/-- `data_frame.groupby([year, aggregation, code], as_index=False)
.agg(min_value=(value,'min'), max_value=(value,'max'))`: the output schema is
the three grouping columns followed by `min_value` and `max_value`. -/
def groupbyAgg (yc ac cc vc : String) (df : Relation) : Except String Relation :=
  match lookupIdx df.columns yc with
  | .error e => .error e
  | .ok iy =>
    match lookupIdx df.columns ac with
    | .error e => .error e
    | .ok ia =>
      match lookupIdx df.columns cc with
      | .error e => .error e
      | .ok ic =>
        match lookupIdx df.columns vc with
        | .error e => .error e
        | .ok iv =>
          match groupMinMaxRows iy ia ic iv df.rows with
          | .error e => .error e
          | .ok rows => .ok ⟨[yc, ac, cc, "min_value", "max_value"], rows⟩

/-- `data_frame.rename(columns={'min_value': trg_min, 'max_value': trg_max},
inplace=True)`: renames every column labelled `min_value` or `max_value`,
leaves the rest alone, and never touches the rows. -/
def renameMinMax (trgMin trgMax : String) (df : Relation) : Relation :=
  ⟨df.columns.map (fun c =>
      if c = "min_value" then trgMin else if c = "max_value" then trgMax else c),
    df.rows⟩

/-- Union of the schemas of several relations, first occurrence first
(`pd.concat` outer column alignment). -/
def unionCols (rels : List Relation) : List String :=
  rels.foldl (fun acc r => acc ++ r.columns.filter (fun c => c ∉ acc)) []

/-- A row re-expressed over the union schema: cells of columns the row's own
relation lacks become NaN (`pd.concat` fills missing columns with NaN). -/
def alignRow (allCols cols : List String) (row : List Value) : List Value :=
  allCols.map (fun c =>
    match lookupIdx cols c with
    | .ok i => row.getD i .vnan
    | .error _ => .vnan)

/-- `pd.concat(frames, ignore_index=True)`: outer-aligned columns, rows in
source-file order then in-file order. -/
def concatRelations (rels : List Relation) : Relation :=
  let cols := unionCols rels
  ⟨cols, (rels.map (fun r => r.rows.map (alignRow cols r.columns))).flatten⟩

/-- `DewpETL.extract`, with the storage port's listing and per-key reader
passed in: an empty listing gives the empty relation with no columns;
otherwise every listed object is read (a failed read aborts the whole
extract) and the frames are concatenated. -/
def extract (read : String → Except String Relation) (files : List String) :
    Except String Relation :=
  if files.isEmpty then .ok ⟨[], []⟩
  else
    match mapME read files with
    | .error e => .error e
    | .ok dfs => .ok (concatRelations dfs)

/-- A calendar date, standing in for `datetime.today()` so the clock is an
explicit argument. -/
structure Date where
  year : Nat
  month : Nat
  day : Nat
deriving DecidableEq, Repr

/-- A number rendered in decimal, left-padded with zeros to width `w`. -/
def padZero (w : Nat) (n : Nat) : String :=
  let s := toString n
  String.mk (List.replicate (w - s.length) '0') ++ s

/-- `strftime` over the directives this job's key patterns use
(`%Y`, `%m`, `%d`, `%%`); other characters pass through unchanged. -/
def strftimeChars (d : Date) : List Char → String
  | [] => ""
  | '%' :: 'Y' :: rest => padZero 4 d.year ++ strftimeChars d rest
  | '%' :: 'm' :: rest => padZero 2 d.month ++ strftimeChars d rest
  | '%' :: 'd' :: rest => padZero 2 d.day ++ strftimeChars d rest
  | '%' :: '%' :: rest => "%" ++ strftimeChars d rest
  | c :: rest => String.singleton c ++ strftimeChars d rest

/-- `today.strftime(pattern)`. -/
def strftime (d : Date) (pattern : String) : String :=
  strftimeChars d pattern.data

/-- One write against the target storage port:
`write_df_to_s3(data_frame, key, file_format)`. -/
structure WriteOp where
  data : Relation
  key : String
  file_format : String
deriving DecidableEq, Repr

structure DewpSourceConfig where
  src_columns : List String
  src_col_year : String
  src_col_industry_aggregation_knzsioc : String
  src_col_industry_code_nzsioc : String
  src_col_value : String
  src_col_year_filter : String
  src_files_prefix : String
  src_format : String
deriving DecidableEq, Repr

structure DewpTargetConfig where
  trg_columns : List String
  trg_col_year : String
  trg_col_industry_aggregation_knzsioc : String
  trg_col_industry_code_nzsioc : String
  trg_col_min_value : String
  trg_col_max_value : String
  trg_key : String
  trg_key_date_format : String
  trg_format : String
deriving DecidableEq, Repr

/-- `DewpETL.load` with the clock injected: builds the target key
`trg_key + today.strftime(trg_key_date_format) + '.' + trg_format`, performs
the single `write_df_to_s3` call (returned as the list of write operations
issued), and returns `True`. -/
def load (trg : DewpTargetConfig) (today : Date) (df : Relation) :
    List WriteOp × Bool :=
  let target_key :=
    trg.trg_key ++ strftime today trg.trg_key_date_format ++ "." ++ trg.trg_format
  ([⟨df, target_key, trg.trg_format⟩], true)

/-- `DewpETL.transform_report1`: empty-input guard, column projection,
numeric coercion of the value column, year filter, grouped min/max
aggregation, rename of the two aggregate columns. -/
def transform_report1 (src : DewpSourceConfig) (trg : DewpTargetConfig)
    (df : Relation) : Except String Relation :=
  if df.isEmpty then .ok df
  else
    match projectColumns src.src_columns df with
    | .error e => .error e
    | .ok df1 =>
      match coerceValueColumn src.src_col_value df1 with
      | .error e => .error e
      | .ok df2 =>
        match filterYear src.src_col_year src.src_col_year_filter df2 with
        | .error e => .error e
        | .ok df3 =>
          match groupbyAgg src.src_col_year src.src_col_industry_aggregation_knzsioc
              src.src_col_industry_code_nzsioc src.src_col_value df3 with
          | .error e => .error e
          | .ok df4 => .ok (renameMinMax trg.trg_col_min_value trg.trg_col_max_value df4)

/-- The pipeline prefix of `transform_report1` up to and including the year
filter, used to name the intermediate relation "after the year filter". -/
def transformToFilter (src : DewpSourceConfig) (df : Relation) : Except String Relation :=
  match projectColumns src.src_columns df with
  | .error e => .error e
  | .ok df1 =>
    match coerceValueColumn src.src_col_value df1 with
    | .error e => .error e
    | .ok df2 => filterYear src.src_col_year src.src_col_year_filter df2

/-! Concrete configurations and relations used by the end-to-end scenario,
the witnesses, and the counterexamples. -/

/-- The source configuration of the spec's end-to-end scenario: the four
report columns, year filter `>= 2015`. -/
def srcEx : DewpSourceConfig :=
  ⟨["Year", "Agg", "Code", "Value"], "Year", "Agg", "Code", "Value", "2015", "nz", "csv"⟩

/-- The target configuration of the spec's end-to-end scenario and of the
output-key example (`report1_` / `%Y%m%d` / `parquet`). -/
def trgEx : DewpTargetConfig :=
  ⟨["Year", "Agg", "Code", "min_val", "max_val"], "Year", "Agg", "Code",
    "min_val", "max_val", "report1_", "%Y%m%d", "parquet"⟩

/-- The three source rows of the spec's end-to-end scenario. -/
def dfEx : Relation :=
  ⟨["Year", "Agg", "Code", "Value"],
   [[.vnum 2016, .vstr "A", .vstr "X", .vstr "10"],
    [.vnum 2016, .vstr "A", .vstr "X", .vstr "abc"],
    [.vnum 2014, .vstr "A", .vstr "X", .vstr "99"]]⟩

/-- Claim C5: on the three concrete source rows (2016, A, X, "10"),
(2016, A, X, "abc"), (2014, A, X, "99") with year filter 2015, the transform
yields exactly one output row: year 2016, agg A, code X, minimum 0 (the
coerced "abc") and maximum 10, under the renamed aggregate columns. -/
theorem c5_end_to_end :
    transform_report1 srcEx trgEx dfEx =
      .ok ⟨["Year", "Agg", "Code", "min_val", "max_val"],
           [[.vnum 2016, .vstr "A", .vstr "X", .vnum 0, .vnum 10]]⟩ := by
  decide

/-- Claim C4: the transform of an empty relation (zero rows or zero columns,
pandas `DataFrame.empty`) is that relation itself, returned by the
empty-input guard before any further step can run or fail. -/
theorem c4_empty_identity (src : DewpSourceConfig) (trg : DewpTargetConfig)
    (df : Relation) (h : df.isEmpty = true) :
    transform_report1 src trg df = .ok df := by
  simp [transform_report1, h]

theorem c4_empty_identity_witness :
    (⟨[], []⟩ : Relation).isEmpty = true ∧
      transform_report1 srcEx trgEx ⟨[], []⟩ = .ok ⟨[], []⟩ :=
  ⟨by decide, c4_empty_identity srcEx trgEx ⟨[], []⟩ (by decide)⟩

/-- Claim C10: a relation with zero rows is returned unchanged whatever its
columns — even columns that miss every configured source column — because
the empty guard fires before projection ever looks at the schema, so no
schema-mismatch error can be raised. -/
theorem c10_zero_rows_identity (src : DewpSourceConfig) (trg : DewpTargetConfig)
    (df : Relation) (h : df.rows = []) :
    transform_report1 src trg df = .ok df := by
  have he : df.isEmpty = true := by
    simp [Relation.isEmpty, h]
  simp [transform_report1, he]

theorem c10_zero_rows_identity_witness :
    (⟨["foo"], []⟩ : Relation).rows = [] ∧
      "Year" ∈ srcEx.src_columns ∧ "Year" ∉ (⟨["foo"], []⟩ : Relation).columns ∧
      transform_report1 srcEx trgEx ⟨["foo"], []⟩ = .ok ⟨["foo"], []⟩ :=
  ⟨rfl, by decide, by decide, c10_zero_rows_identity srcEx trgEx ⟨["foo"], []⟩ rfl⟩

/-- Claim C7: for every target configuration, injected date and relation,
`load` issues exactly one write, whose key is the concatenation
`trg_key ++ strftime(today, trg_key_date_format) ++ "." ++ trg_format`; and
on the spec's example (prefix `report1_`, pattern `%Y%m%d`, format `parquet`,
date 2024-03-01) that key is `report1_20240301.parquet`. -/
theorem c7_load_key :
    (∀ (trg : DewpTargetConfig) (today : Date) (df : Relation),
        load trg today df =
          ([⟨df, trg.trg_key ++ strftime today trg.trg_key_date_format ++ "."
              ++ trg.trg_format, trg.trg_format⟩], true)) ∧
      (load trgEx ⟨2024, 3, 1⟩ ⟨[], []⟩).1.map WriteOp.key =
        ["report1_20240301.parquet"] := by
  exact ⟨fun trg today df => rfl, by decide⟩

/-! Inversion lemmas for `mapME`. -/

theorem mapME_ok_forall2 {α β : Type} {f : α → Except String β} :
    ∀ {l : List α} {l' : List β}, mapME f l = .ok l' →
      List.Forall₂ (fun a b => f a = .ok b) l l' := by
  intro l
  induction l with
  | nil =>
    intro l' h
    simp only [mapME, Except.ok.injEq] at h
    subst h
    exact List.Forall₂.nil
  | cons a t ih =>
    intro l' h
    simp only [mapME] at h
    cases hfa : f a with
    | error e => rw [hfa] at h; simp at h
    | ok b =>
      rw [hfa] at h
      cases hmt : mapME f t with
      | error e => rw [hmt] at h; simp at h
      | ok t' =>
        rw [hmt] at h
        simp only [Except.ok.injEq] at h
        subst h
        exact List.Forall₂.cons hfa (ih hmt)

theorem mapME_error_exists {α β : Type} {f : α → Except String β} :
    ∀ {l : List α} {e : String}, mapME f l = .error e → ∃ a ∈ l, f a = .error e := by
  intro l
  induction l with
  | nil => intro e h; simp [mapME] at h
  | cons a t ih =>
    intro e h
    simp only [mapME] at h
    cases hfa : f a with
    | error e' =>
      rw [hfa] at h
      simp only [Except.error.injEq] at h
      subst h
      exact ⟨a, List.mem_cons_self a t, hfa⟩
    | ok b =>
      rw [hfa] at h
      cases hmt : mapME f t with
      | error e' =>
        rw [hmt] at h
        simp only [Except.error.injEq] at h
        subst h
        rcases ih hmt with ⟨x, hx, hfx⟩
        exact ⟨x, List.mem_cons_of_mem a hx, hfx⟩
      | ok t' => rw [hmt] at h; simp at h

theorem mapME_exists_error {α β : Type} {f : α → Except String β} :
    ∀ {l : List α}, (∃ a ∈ l, ∃ e, f a = .error e) →
      ∃ e, mapME f l = .error e ∧ ∃ a ∈ l, f a = .error e := by
  intro l
  induction l with
  | nil => rintro ⟨a, ha, _⟩; simp at ha
  | cons a t ih =>
    rintro ⟨x, hx, e, hfx⟩
    cases hfa : f a with
    | error e' =>
      refine ⟨e', ?_, a, List.mem_cons_self a t, hfa⟩
      simp only [mapME, hfa]
    | ok b =>
      have hxt : x ∈ t := by
        rcases List.mem_cons.1 hx with rfl | hxt
        · rw [hfa] at hfx; exact absurd hfx (by simp)
        · exact hxt
      rcases ih ⟨x, hxt, e, hfx⟩ with ⟨e', hmt, y, hy, hfy⟩
      refine ⟨e', ?_, y, List.mem_cons_of_mem a hy, hfy⟩
      simp only [mapME, hfa, hmt]

theorem forall2_mem_left {α β : Type} {R : α → β → Prop} {l : List α} {l' : List β}
    (h : List.Forall₂ R l l') : ∀ a ∈ l, ∃ b ∈ l', R a b := by
  induction h with
  | nil => simp
  | cons hr _ ih =>
    intro a ha
    rcases List.mem_cons.1 ha with rfl | ha
    · exact ⟨_, List.mem_cons_self _ _, hr⟩
    · rcases ih a ha with ⟨b, hb, hrb⟩
      exact ⟨b, List.mem_cons_of_mem _ hb, hrb⟩

/-- A storage port reader that fails on the object `bad`. -/
def readEx : String → Except String Relation :=
  fun f => if f = "bad" then .error "boom" else .ok ⟨[], []⟩

/-- Claim C8: an empty listing makes `extract` return the empty relation
with no columns; if any listed object's read fails, `extract` fails and the
error it reports is one actually produced by reading a listed object
(propagated, not swallowed, no partial concatenation returned); and when
`extract` succeeds, every listed object was read successfully. -/
theorem c8_extract_errors :
    (∀ read : String → Except String Relation, extract read [] = .ok ⟨[], []⟩) ∧
      (∀ (read : String → Except String Relation) (files : List String),
        (∃ f ∈ files, ∃ e, read f = .error e) →
          ∃ e, extract read files = .error e ∧ ∃ f ∈ files, read f = .error e) ∧
      (∀ (read : String → Except String Relation) (files : List String) (out : Relation),
        extract read files = .ok out → ∀ f ∈ files, ∃ df, read f = .ok df) := by
  refine ⟨fun read => rfl, ?_, ?_⟩
  · intro read files hex
    have hne : files.isEmpty = false := by
      rcases hex with ⟨f, hf, _⟩
      cases files with
      | nil => simp at hf
      | cons a t => rfl
    rcases mapME_exists_error hex with ⟨e, hmap, f, hf, hrf⟩
    refine ⟨e, ?_, f, hf, hrf⟩
    simp only [extract, hne, Bool.false_eq_true, if_false, hmap]
  · intro read files out hok f hf
    have hne : files.isEmpty = false := by
      cases files with
      | nil => simp at hf
      | cons a t => rfl
    simp only [extract, hne, Bool.false_eq_true, if_false] at hok
    cases hmap : mapME read files with
    | error e => rw [hmap] at hok; simp at hok
    | ok dfs =>
      rcases forall2_mem_left (mapME_ok_forall2 hmap) f hf with ⟨df, _, hdf⟩
      exact ⟨df, hdf⟩

theorem c8_extract_errors_witness :
    (∃ f ∈ ["good", "bad"], ∃ e, readEx f = .error e) ∧
      (∃ e, extract readEx ["good", "bad"] = .error e ∧
        ∃ f ∈ ["good", "bad"], readEx f = .error e) :=
  ⟨⟨"bad", by decide, "boom", by decide⟩,
    c8_extract_errors.2.1 readEx ["good", "bad"] ⟨"bad", by decide, "boom", by decide⟩⟩

/-- Claim C2: whenever the value column is present in the schema the
coercion step receives (the projection step guarantees this when the config
lists it), coercion always succeeds, keeps every row (same row count), turns
each value-column entry into the parsed number — exactly zero when the entry
is not parseable as a number — and leaves every other cell untouched. -/
theorem c2_coercion_total (vc : String) (df : Relation) (iv : Nat)
    (hiv : lookupIdx df.columns vc = .ok iv) :
    ∃ df' : Relation, coerceValueColumn vc df = .ok df' ∧
      df'.columns = df.columns ∧
      df'.rows.length = df.rows.length ∧
      ∀ (j : Nat) (row : List Value), df.rows[j]? = some row →
        ∃ row' : List Value, df'.rows[j]? = some row' ∧
          (∀ cell : Value, row[iv]? = some cell →
            row'[iv]? = some (Value.vnum ((toNumericOpt cell).getD 0))) ∧
          ∀ j' : Nat, j' ≠ iv → row'[j']? = row[j']? := by
  refine ⟨⟨df.columns, df.rows.map (fun row => row.set iv (coerceCell (row.getD iv .vnan)))⟩,
    ?_, rfl, by simp, ?_⟩
  · simp only [coerceValueColumn, hiv]
  · intro j row hrow
    refine ⟨row.set iv (coerceCell (row.getD iv .vnan)), ?_, ?_, ?_⟩
    · rw [List.getElem?_map _ df.rows j, hrow]
      rfl
    · intro cell hcell
      have hlt : iv < row.length := (List.getElem?_eq_some.mp hcell).1
      have hd : row.getD iv .vnan = cell := by
        simp [List.getD, List.get?_eq_getElem?, hcell]
      rw [List.getElem?_set_eq_of_lt _ hlt, hd]
      rfl
    · intro j' hj'
      exact List.getElem?_set_ne (Ne.symm hj')

theorem c2_coercion_total_witness :
    lookupIdx dfEx.columns "Value" = .ok 3 ∧
      (∃ df' : Relation, coerceValueColumn "Value" dfEx = .ok df' ∧
        df'.columns = dfEx.columns ∧
        df'.rows.length = dfEx.rows.length ∧
        ∀ (j : Nat) (row : List Value), dfEx.rows[j]? = some row →
          ∃ row' : List Value, df'.rows[j]? = some row' ∧
            (∀ cell : Value, row[3]? = some cell →
              row'[3]? = some (Value.vnum ((toNumericOpt cell).getD 0))) ∧
            ∀ j' : Nat, j' ≠ 3 → row'[j']? = row[j']?) :=
  ⟨by decide, c2_coercion_total "Value" dfEx 3 (by decide)⟩

/-- The row predicate the year filter keeps: the year cell is numeric and at
least the threshold (a NaN or non-numeric year cell never satisfies it). -/
def yearGE (iy : Nat) (t : Int) (row : List Value) : Bool :=
  match row.getD iy .vnan with
  | .vnum n => decide (t ≤ n)
  | _ => false

theorem yearGE_iff (iy : Nat) (t : Int) (row : List Value) :
    yearGE iy t row = true ↔ ∃ n, row.getD iy Value.vnan = Value.vnum n ∧ t ≤ n := by
  unfold yearGE
  cases hy : row.getD iy Value.vnan <;> simp [hy]

theorem filterYearRows_ok {iy : Nat} {t : Int} :
    ∀ {rs kept : List (List Value)}, filterYearRows iy t rs = .ok kept →
      kept = rs.filter (yearGE iy t) := by
  intro rs
  induction rs with
  | nil =>
    intro kept h
    simp only [filterYearRows, Except.ok.injEq] at h
    subst h
    rfl
  | cons row rest ih =>
    intro kept h
    simp only [filterYearRows] at h
    cases hy : row.getD iy .vnan with
    | vnum n =>
      rw [hy] at h
      cases hr : filterYearRows iy t rest with
      | error e => rw [hr] at h; simp at h
      | ok kept' =>
        rw [hr] at h
        simp only [Except.ok.injEq] at h
        subst h
        rw [List.filter_cons, ← ih hr]
        simp only [yearGE, hy]
        by_cases hle : t ≤ n <;> simp [hle]
    | vnan =>
      rw [hy] at h
      cases hr : filterYearRows iy t rest with
      | error e => rw [hr] at h; simp at h
      | ok kept' =>
        rw [hr] at h
        simp only [Except.ok.injEq] at h
        subst h
        rw [List.filter_cons, ← ih hr]
        simp only [yearGE, hy]
        simp
    | vstr s => rw [hy] at h; simp at h

/-- Claim C3: whenever the year-filter step completes, it has kept exactly
the rows whose year cell is a number that is at least the parsed threshold:
every retained row comes from the input and satisfies `year >= threshold`,
and every input row satisfying it is retained. -/
theorem c3_year_filter (yc fs : String) (df df' : Relation)
    (h : filterYear yc fs df = .ok df') :
    ∃ iy t, lookupIdx df.columns yc = .ok iy ∧ parseIntLit fs = some t ∧
      df'.columns = df.columns ∧
      df'.rows = df.rows.filter (yearGE iy t) ∧
      (∀ row ∈ df'.rows, row ∈ df.rows ∧
        ∃ n, row.getD iy Value.vnan = Value.vnum n ∧ t ≤ n) ∧
      (∀ row ∈ df.rows, (∃ n, row.getD iy Value.vnan = Value.vnum n ∧ t ≤ n) →
        row ∈ df'.rows) := by
  simp only [filterYear] at h
  cases hiy : lookupIdx df.columns yc with
  | error e =>
    simp only [hiy] at h
    exact Except.noConfusion h
  | ok iy =>
    simp only [hiy] at h
    cases ht : parseIntLit fs with
    | none =>
      simp only [ht] at h
      exact Except.noConfusion h
    | some t =>
      simp only [ht] at h
      cases hk : filterYearRows iy t df.rows with
      | error e =>
        simp only [hk] at h
        exact Except.noConfusion h
      | ok kept =>
        simp only [hk, Except.ok.injEq] at h
        subst h
        have hfil := filterYearRows_ok hk
        refine ⟨iy, t, rfl, rfl, rfl, hfil, ?_, ?_⟩
        · intro row hrow
          rw [hfil] at hrow
          have := List.mem_filter.mp hrow
          exact ⟨this.1, (yearGE_iff iy t row).mp this.2⟩
        · intro row hrow hge
          rw [hfil]
          exact List.mem_filter.mpr ⟨hrow, (yearGE_iff iy t row).mpr hge⟩

/-- A one-column year relation exercising kept, dropped and NaN rows. -/
def dfYears : Relation :=
  ⟨["Year"], [[.vnum 2016], [.vnum 2014], [.vnan]]⟩

theorem c3_year_filter_witness :
    filterYear "Year" "2015" dfYears = .ok ⟨["Year"], [[.vnum 2016]]⟩ ∧
      (∃ iy t, lookupIdx dfYears.columns "Year" = .ok iy ∧
        parseIntLit "2015" = some t ∧
        (⟨["Year"], [[.vnum 2016]]⟩ : Relation).columns = dfYears.columns ∧
        (⟨["Year"], [[.vnum 2016]]⟩ : Relation).rows = dfYears.rows.filter (yearGE iy t) ∧
        (∀ row ∈ (⟨["Year"], [[.vnum 2016]]⟩ : Relation).rows, row ∈ dfYears.rows ∧
          ∃ n, row.getD iy Value.vnan = Value.vnum n ∧ t ≤ n) ∧
        (∀ row ∈ dfYears.rows,
          (∃ n, row.getD iy Value.vnan = Value.vnum n ∧ t ≤ n) →
            row ∈ (⟨["Year"], [[.vnum 2016]]⟩ : Relation).rows)) :=
  ⟨by decide, c3_year_filter "Year" "2015" dfYears ⟨["Year"], [[.vnum 2016]]⟩ (by decide)⟩

/-! Helper lemmas about `lookupIdx`, `Forall₂` and `foldl min`/`foldl max`. -/

theorem lookupIdx_error_of_not_mem {cols : List String} {c : String} (h : c ∉ cols) :
    lookupIdx cols c = .error ("KeyError: " ++ c) := by
  induction cols with
  | nil => rfl
  | cons c0 rest ih =>
    have hne : c0 ≠ c := fun he => h (he ▸ List.mem_cons_self c0 rest)
    have hnm : c ∉ rest := fun hm => h (List.mem_cons_of_mem _ hm)
    simp [lookupIdx, hne, ih hnm]

theorem lookupIdx_ok_of_mem {cols : List String} {c : String} (h : c ∈ cols) :
    ∃ i, lookupIdx cols c = .ok i ∧ i < cols.length ∧ cols.getD i "" = c := by
  induction cols with
  | nil => simp at h
  | cons c0 rest ih =>
    by_cases he : c0 = c
    · exact ⟨0, by simp [lookupIdx, he], by simp, by simp [List.getD, he]⟩
    · have hm : c ∈ rest := by
        rcases List.mem_cons.1 h with h0 | h1
        · exact absurd h0.symm he
        · exact h1
      rcases ih hm with ⟨i, hok, hlt, hget⟩
      refine ⟨i + 1, by simp [lookupIdx, he, hok], by simpa using Nat.succ_lt_succ hlt, ?_⟩
      simpa [List.getD] using hget

theorem lookupIdx_ok_lt {cols : List String} {c : String} {i : Nat}
    (h : lookupIdx cols c = .ok i) : i < cols.length ∧ cols.getD i "" = c := by
  induction cols generalizing i with
  | nil => exact Except.noConfusion h
  | cons c0 rest ih =>
    simp only [lookupIdx] at h
    by_cases he : c0 = c
    · rw [if_pos he] at h
      simp only [Except.ok.injEq] at h
      subst h
      simp [List.getD, he]
    · rw [if_neg he] at h
      cases hr : lookupIdx rest c with
      | error e =>
        simp only [hr] at h
        exact Except.noConfusion h
      | ok j =>
        simp only [hr, Except.ok.injEq] at h
        subst h
        rcases ih hr with ⟨hlt, hget⟩
        refine ⟨by simpa using Nat.succ_lt_succ hlt, ?_⟩
        simpa [List.getD] using hget

theorem forall2_mem_right {α β : Type} {R : α → β → Prop} {l : List α} {l' : List β}
    (h : List.Forall₂ R l l') : ∀ b ∈ l', ∃ a ∈ l, R a b := by
  induction h with
  | nil => simp
  | cons hr _ ih =>
    intro b hb
    rcases List.mem_cons.1 hb with rfl | hb
    · exact ⟨_, List.mem_cons_self _ _, hr⟩
    · rcases ih b hb with ⟨a, ha, hra⟩
      exact ⟨a, List.mem_cons_of_mem _ ha, hra⟩

theorem forall2_get {α β : Type} {R : α → β → Prop} {l : List α} {l' : List β}
    (h : List.Forall₂ R l l') :
    ∀ (i : Nat) (a : α) (b : β), l[i]? = some a → l'[i]? = some b → R a b := by
  induction h with
  | nil => intro i a b ha; simp at ha
  | cons hr _ ih =>
    intro i a b ha hb
    cases i with
    | zero =>
      simp only [List.getElem?_cons_zero, Option.some.injEq] at ha hb
      subst ha
      subst hb
      exact hr
    | succ n =>
      simp only [List.getElem?_cons_succ] at ha hb
      exact ih n a b ha hb

theorem mapME_ok_of_forall {α β : Type} {f : α → Except String β} :
    ∀ {l : List α}, (∀ a ∈ l, ∃ b, f a = .ok b) → ∃ l', mapME f l = .ok l' := by
  intro l
  induction l with
  | nil => intro _; exact ⟨[], rfl⟩
  | cons a t ih =>
    intro hall
    rcases hall a (List.mem_cons_self a t) with ⟨b, hb⟩
    rcases ih (fun x hx => hall x (List.mem_cons_of_mem a hx)) with ⟨t', ht⟩
    exact ⟨b :: t', by simp only [mapME, hb, ht]⟩

theorem foldl_min_le : ∀ (vs : List Int) (v : Int), ∀ x ∈ v :: vs, vs.foldl min v ≤ x := by
  intro vs
  induction vs with
  | nil =>
    intro v x hx
    rcases List.mem_cons.1 hx with rfl | hx'
    · exact le_refl x
    · simp at hx'
  | cons a t ih =>
    intro v x hx
    simp only [List.foldl_cons]
    rcases List.mem_cons.1 hx with rfl | hx'
    · exact le_trans (ih (min x a) (min x a) (List.mem_cons_self _ _)) (min_le_left _ _)
    · rcases List.mem_cons.1 hx' with rfl | hx''
      · exact le_trans (ih (min v x) (min v x) (List.mem_cons_self _ _)) (min_le_right _ _)
      · exact ih (min v a) x (List.mem_cons_of_mem _ hx'')

theorem foldl_min_mem : ∀ (vs : List Int) (v : Int), vs.foldl min v ∈ v :: vs := by
  intro vs
  induction vs with
  | nil => intro v; simp
  | cons a t ih =>
    intro v
    simp only [List.foldl_cons]
    rcases List.mem_cons.1 (ih (min v a)) with heq | hmem
    · rcases min_choice v a with hva | hva
      · rw [heq, hva]; exact List.mem_cons_self _ _
      · rw [heq, hva]; exact List.mem_cons_of_mem _ (List.mem_cons_self _ _)
    · exact List.mem_cons_of_mem _ (List.mem_cons_of_mem _ hmem)

theorem foldl_max_ge : ∀ (vs : List Int) (v : Int), ∀ x ∈ v :: vs, x ≤ vs.foldl max v := by
  intro vs
  induction vs with
  | nil =>
    intro v x hx
    rcases List.mem_cons.1 hx with rfl | hx'
    · exact le_refl x
    · simp at hx'
  | cons a t ih =>
    intro v x hx
    simp only [List.foldl_cons]
    rcases List.mem_cons.1 hx with rfl | hx'
    · exact le_trans (le_max_left _ _) (ih (max x a) (max x a) (List.mem_cons_self _ _))
    · rcases List.mem_cons.1 hx' with rfl | hx''
      · exact le_trans (le_max_right _ _) (ih (max v x) (max v x) (List.mem_cons_self _ _))
      · exact ih (max v a) x (List.mem_cons_of_mem _ hx'')

theorem foldl_max_mem : ∀ (vs : List Int) (v : Int), vs.foldl max v ∈ v :: vs := by
  intro vs
  induction vs with
  | nil => intro v; simp
  | cons a t ih =>
    intro v
    simp only [List.foldl_cons]
    rcases List.mem_cons.1 (ih (max v a)) with heq | hmem
    · rcases max_choice v a with hva | hva
      · rw [heq, hva]; exact List.mem_cons_self _ _
      · rw [heq, hva]; exact List.mem_cons_of_mem _ (List.mem_cons_self _ _)
    · exact List.mem_cons_of_mem _ (List.mem_cons_of_mem _ hmem)

/-- The value-column cells of one group: the rows whose key is `k`, projected
to the value column. -/
def groupVals (iy ia ic iv : Nat) (rows : List (List Value))
    (k : Value × Value × Value) : List Value :=
  (rows.filter (fun r => rowKey iy ia ic r = k)).map (fun r => r.getD iv Value.vnan)

theorem cellNum_ok {iv : Nat} {r : List Value} {n : Int} :
    cellNum iv r = .ok n ↔ r.getD iv Value.vnan = Value.vnum n := by
  unfold cellNum
  cases h : r.getD iv Value.vnan <;> simp [h]

theorem forall2_cellNum_map {iv : Nat} {grp : List (List Value)} {vals : List Int}
    (h : List.Forall₂ (fun r n => cellNum iv r = .ok n) grp vals) :
    grp.map (fun r => r.getD iv Value.vnan) = vals.map Value.vnum := by
  induction h with
  | nil => rfl
  | cons hr _ ih =>
    simp only [List.map_cons, List.cons.injEq]
    exact ⟨cellNum_ok.mp hr, ih⟩

/-- The grouping key of an aggregated output row (its first three cells). -/
def outKey (row : List Value) : Value × Value × Value :=
  (row.getD 0 Value.vnan, row.getD 1 Value.vnan, row.getD 2 Value.vnan)

theorem groupAgg_ok {iy ia ic iv : Nat} {rows : List (List Value)}
    {k : Value × Value × Value} {row : List Value}
    (h : groupAgg iy ia ic iv rows k = .ok row) :
    ∃ m M : Int,
      row = [k.1, k.2.1, k.2.2, Value.vnum m, Value.vnum M] ∧ m ≤ M ∧
      Value.vnum m ∈ groupVals iy ia ic iv rows k ∧
      Value.vnum M ∈ groupVals iy ia ic iv rows k ∧
      ∀ v ∈ groupVals iy ia ic iv rows k, ∃ n : Int, v = Value.vnum n ∧ m ≤ n ∧ n ≤ M := by
  simp only [groupAgg] at h
  cases hm : mapME (cellNum iv) (rows.filter (fun r => rowKey iy ia ic r = k)) with
  | error e =>
    simp only [hm] at h
    exact Except.noConfusion h
  | ok vals =>
    simp only [hm] at h
    have hvals : groupVals iy ia ic iv rows k = vals.map Value.vnum :=
      forall2_cellNum_map (mapME_ok_forall2 hm)
    cases vals with
    | nil => exact Except.noConfusion h
    | cons v vs =>
      simp only [Except.ok.injEq] at h
      subst h
      refine ⟨vs.foldl min v, vs.foldl max v, rfl, ?_, ?_, ?_, ?_⟩
      · exact foldl_min_le vs v _ (foldl_max_mem vs v)
      · rw [hvals]
        exact List.mem_map_of_mem _ (foldl_min_mem vs v)
      · rw [hvals]
        exact List.mem_map_of_mem _ (foldl_max_mem vs v)
      · intro x hx
        rw [hvals] at hx
        rcases List.mem_map.1 hx with ⟨n, hn, rfl⟩
        exact ⟨n, rfl, foldl_min_le vs v n hn, foldl_max_ge vs v n hn⟩

theorem forall2_groupAgg_keys {iy ia ic iv : Nat} {rows : List (List Value)}
    {ks : List (Value × Value × Value)} {gs : List (List Value)}
    (h : List.Forall₂ (fun k g => groupAgg iy ia ic iv rows k = .ok g) ks gs) :
    gs.map outKey = ks := by
  induction h with
  | nil => rfl
  | cons hr _ ih =>
    rcases groupAgg_ok hr with ⟨m, M, hrow, _⟩
    simp only [List.map_cons, List.cons.injEq]
    refine ⟨?_, ih⟩
    rw [hrow]
    simp [outKey, List.getD]

theorem groupbyAgg_ok_inversion {yc ac cc vc : String} {df dfo : Relation}
    (h : groupbyAgg yc ac cc vc df = .ok dfo) :
    ∃ (iy ia ic iv : Nat) (grows : List (List Value)),
      lookupIdx df.columns yc = .ok iy ∧ lookupIdx df.columns ac = .ok ia ∧
      lookupIdx df.columns cc = .ok ic ∧ lookupIdx df.columns vc = .ok iv ∧
      groupMinMaxRows iy ia ic iv df.rows = .ok grows ∧
      dfo = ⟨[yc, ac, cc, "min_value", "max_value"], grows⟩ := by
  simp only [groupbyAgg] at h
  cases hy : lookupIdx df.columns yc with
  | error e => simp only [hy] at h; exact Except.noConfusion h
  | ok iy =>
    simp only [hy] at h
    cases ha : lookupIdx df.columns ac with
    | error e => simp only [ha] at h; exact Except.noConfusion h
    | ok ia =>
      simp only [ha] at h
      cases hc : lookupIdx df.columns cc with
      | error e => simp only [hc] at h; exact Except.noConfusion h
      | ok ic =>
        simp only [hc] at h
        cases hv : lookupIdx df.columns vc with
        | error e => simp only [hv] at h; exact Except.noConfusion h
        | ok iv =>
          simp only [hv] at h
          cases hg : groupMinMaxRows iy ia ic iv df.rows with
          | error e => simp only [hg] at h; exact Except.noConfusion h
          | ok grows =>
            simp only [hg, Except.ok.injEq] at h
            exact ⟨iy, ia, ic, iv, grows, rfl, rfl, rfl, rfl, hg, h.symm⟩

theorem transform_ok_inversion {src : DewpSourceConfig} {trg : DewpTargetConfig}
    {df out : Relation} (hne : df.isEmpty = false)
    (h : transform_report1 src trg df = .ok out) :
    ∃ df1 df2 df3 df4 : Relation,
      projectColumns src.src_columns df = .ok df1 ∧
      coerceValueColumn src.src_col_value df1 = .ok df2 ∧
      filterYear src.src_col_year src.src_col_year_filter df2 = .ok df3 ∧
      transformToFilter src df = .ok df3 ∧
      groupbyAgg src.src_col_year src.src_col_industry_aggregation_knzsioc
        src.src_col_industry_code_nzsioc src.src_col_value df3 = .ok df4 ∧
      out = renameMinMax trg.trg_col_min_value trg.trg_col_max_value df4 := by
  simp only [transform_report1, hne, Bool.false_eq_true, if_false] at h
  cases h1 : projectColumns src.src_columns df with
  | error e => simp only [h1] at h; exact Except.noConfusion h
  | ok df1 =>
    simp only [h1] at h
    cases h2 : coerceValueColumn src.src_col_value df1 with
    | error e => simp only [h2] at h; exact Except.noConfusion h
    | ok df2 =>
      simp only [h2] at h
      cases h3 : filterYear src.src_col_year src.src_col_year_filter df2 with
      | error e => simp only [h3] at h; exact Except.noConfusion h
      | ok df3 =>
        simp only [h3] at h
        cases h4 : groupbyAgg src.src_col_year src.src_col_industry_aggregation_knzsioc
            src.src_col_industry_code_nzsioc src.src_col_value df3 with
        | error e => simp only [h4] at h; exact Except.noConfusion h
        | ok df4 =>
          simp only [h4, Except.ok.injEq] at h
          exact ⟨df1, df2, df3, df4, rfl, h2, h3,
            by simp only [transformToFilter, h1, h2]; exact h3, h4, h.symm⟩

/-- Claim C9: whenever the transform succeeds with a non-empty result, the
result's fourth and fifth columns carry the configured target min/max names,
and every output row has numeric cells there with `min_value ≤ max_value`. -/
theorem c9_min_le_max (src : DewpSourceConfig) (trg : DewpTargetConfig)
    (df out : Relation) (h : transform_report1 src trg df = .ok out)
    (hne : out.isEmpty = false) :
    out.columns.getD 3 "" = trg.trg_col_min_value ∧
      out.columns.getD 4 "" = trg.trg_col_max_value ∧
      ∀ row ∈ out.rows, ∃ m M : Int,
        row.getD 3 Value.vnan = Value.vnum m ∧
        row.getD 4 Value.vnan = Value.vnum M ∧ m ≤ M := by
  cases hd : df.isEmpty with
  | true =>
    simp only [transform_report1, hd, if_true, Except.ok.injEq] at h
    rw [h] at hd
    rw [hd] at hne
    exact Bool.noConfusion hne
  | false =>
    obtain ⟨df1, df2, df3, df4, h1, h2, h3, hmid, h4, hout⟩ := transform_ok_inversion hd h
    obtain ⟨iy, ia, ic, iv, grows, hy, ha, hc, hv, hg, hdf4⟩ := groupbyAgg_ok_inversion h4
    subst hdf4
    subst hout
    refine ⟨by simp [renameMinMax, List.getD], by simp [renameMinMax, List.getD], ?_⟩
    simp only [groupMinMaxRows] at hg
    have hfor := mapME_ok_forall2 hg
    intro row hrow
    obtain ⟨k, hk, hagg⟩ := forall2_mem_right hfor row hrow
    obtain ⟨m, M, hrow_eq, hmM, _⟩ := groupAgg_ok hagg
    exact ⟨m, M, by rw [hrow_eq]; rfl, by rw [hrow_eq]; rfl, hmM⟩

/-- The output relation of the end-to-end scenario. -/
def outEx : Relation :=
  ⟨["Year", "Agg", "Code", "min_val", "max_val"],
   [[.vnum 2016, .vstr "A", .vstr "X", .vnum 0, .vnum 10]]⟩

theorem c9_min_le_max_witness :
    transform_report1 srcEx trgEx dfEx = .ok outEx ∧ outEx.isEmpty = false ∧
      (outEx.columns.getD 3 "" = trgEx.trg_col_min_value ∧
        outEx.columns.getD 4 "" = trgEx.trg_col_max_value ∧
        ∀ row ∈ outEx.rows, ∃ m M : Int,
          row.getD 3 Value.vnan = Value.vnum m ∧
          row.getD 4 Value.vnan = Value.vnum M ∧ m ≤ M) :=
  ⟨by decide, by decide, c9_min_le_max srcEx trgEx dfEx outEx (by decide) (by decide)⟩

/-- A relation whose single row has a NaN industry-aggregation cell (as
`pd.concat` alignment or an empty CSV field produces). -/
def dfNanKey : Relation :=
  ⟨["Year", "Agg", "Code", "Value"],
   [[.vnum 2016, .vnan, .vstr "X", .vstr "10"]]⟩

/-- Claim C1 fails as stated: on `dfNanKey` the relation after the year
filter contains exactly one distinct (year, agg, code) triple, namely
(2016, NaN, X), yet the transform output has zero rows — `groupby` with its
default `dropna=True` silently drops every group whose key contains NaN, so
the output does not have one row per distinct triple present after the
filter. -/
theorem c1_cx_nan_key_dropped :
    transformToFilter srcEx dfNanKey =
      .ok ⟨["Year", "Agg", "Code", "Value"],
           [[.vnum 2016, .vnan, .vstr "X", .vnum 10]]⟩ ∧
      ((([[Value.vnum 2016, Value.vnan, Value.vstr "X", Value.vnum 10]] :
          List (List Value)).map (rowKey 0 1 2)).dedup).length = 1 ∧
      transform_report1 srcEx trgEx dfNanKey =
        .ok ⟨["Year", "Agg", "Code", "min_val", "max_val"], []⟩ := by
  decide

/-- Claim C1 as amended: for every input on which the transform succeeds,
the output has exactly one row per distinct (year, agg, code) triple that is
present after the year filter and has no NaN component (NaN-keyed groups are
dropped by `groupby`'s default `dropna=True`); each output row's fourth and
fifth cells are the minimum and the maximum of the coerced numeric value
column over exactly the rows of its group. -/
theorem c1_grouping_amended (src : DewpSourceConfig) (trg : DewpTargetConfig)
    (df df3 out : Relation) (iy ia ic iv : Nat)
    (hne : df.isEmpty = false)
    (hmid : transformToFilter src df = .ok df3)
    (hout : transform_report1 src trg df = .ok out)
    (hiy : lookupIdx df3.columns src.src_col_year = .ok iy)
    (hia : lookupIdx df3.columns src.src_col_industry_aggregation_knzsioc = .ok ia)
    (hic : lookupIdx df3.columns src.src_col_industry_code_nzsioc = .ok ic)
    (hiv : lookupIdx df3.columns src.src_col_value = .ok iv) :
    (out.rows.map outKey).Nodup ∧
      (∀ k : Value × Value × Value, k ∈ out.rows.map outKey ↔
        (k ∈ df3.rows.map (rowKey iy ia ic) ∧ keyNoNan k = true)) ∧
      ∀ row ∈ out.rows, ∃ m M : Int,
        row.getD 3 Value.vnan = Value.vnum m ∧
        row.getD 4 Value.vnan = Value.vnum M ∧
        Value.vnum m ∈ groupVals iy ia ic iv df3.rows (outKey row) ∧
        Value.vnum M ∈ groupVals iy ia ic iv df3.rows (outKey row) ∧
        ∀ v ∈ groupVals iy ia ic iv df3.rows (outKey row),
          ∃ n : Int, v = Value.vnum n ∧ m ≤ n ∧ n ≤ M := by
  obtain ⟨df1, df2, df3', df4, h1, h2, h3, hmid', h4, hout_eq⟩ := transform_ok_inversion hne hout
  have hdf3 : df3 = df3' := by
    rw [hmid] at hmid'
    exact Except.ok.inj hmid'
  subst hdf3
  obtain ⟨iy', ia', ic', iv', grows, hy, ha, hc, hv, hg, hdf4⟩ := groupbyAgg_ok_inversion h4
  have hiy' : iy = iy' := by rw [hy] at hiy; exact (Except.ok.inj hiy).symm
  have hia' : ia = ia' := by rw [ha] at hia; exact (Except.ok.inj hia).symm
  have hic' : ic = ic' := by rw [hc] at hic; exact (Except.ok.inj hic).symm
  have hiv' : iv = iv' := by rw [hv] at hiv; exact (Except.ok.inj hiv).symm
  subst hiy'
  subst hia'
  subst hic'
  subst hiv'
  subst hdf4
  subst hout_eq
  simp only [groupMinMaxRows] at hg
  have hfor := mapME_ok_forall2 hg
  have hkeys : grows.map outKey = ((df3.rows.map (rowKey iy ia ic)).filter keyNoNan).dedup :=
    forall2_groupAgg_keys hfor
  refine ⟨?_, ?_, ?_⟩
  · show (grows.map outKey).Nodup
    rw [hkeys]
    exact List.nodup_dedup _
  · intro k
    show k ∈ grows.map outKey ↔ _
    rw [hkeys, List.mem_dedup, List.mem_filter]
  · intro row hrow
    obtain ⟨k, hk, hagg⟩ := forall2_mem_right hfor row hrow
    obtain ⟨m, M, hrow_eq, hmM, hmm, hMM, hbound⟩ := groupAgg_ok hagg
    have hok : outKey row = k := by
      rw [hrow_eq]
      simp [outKey, List.getD]
    refine ⟨m, M, by rw [hrow_eq]; rfl, by rw [hrow_eq]; rfl, ?_, ?_, ?_⟩
    · rw [hok]; exact hmm
    · rw [hok]; exact hMM
    · rw [hok]; exact hbound

/-- The relation after the year filter in the end-to-end scenario. -/
def df3Ex : Relation :=
  ⟨["Year", "Agg", "Code", "Value"],
   [[.vnum 2016, .vstr "A", .vstr "X", .vnum 10],
    [.vnum 2016, .vstr "A", .vstr "X", .vnum 0]]⟩

theorem c1_grouping_amended_witness :
    (dfEx.isEmpty = false ∧ transformToFilter srcEx dfEx = .ok df3Ex ∧
      transform_report1 srcEx trgEx dfEx = .ok outEx ∧
      lookupIdx df3Ex.columns srcEx.src_col_year = .ok 0 ∧
      lookupIdx df3Ex.columns srcEx.src_col_industry_aggregation_knzsioc = .ok 1 ∧
      lookupIdx df3Ex.columns srcEx.src_col_industry_code_nzsioc = .ok 2 ∧
      lookupIdx df3Ex.columns srcEx.src_col_value = .ok 3) ∧
      ((outEx.rows.map outKey).Nodup ∧
        (∀ k : Value × Value × Value, k ∈ outEx.rows.map outKey ↔
          (k ∈ df3Ex.rows.map (rowKey 0 1 2) ∧ keyNoNan k = true)) ∧
        ∀ row ∈ outEx.rows, ∃ m M : Int,
          row.getD 3 Value.vnan = Value.vnum m ∧
          row.getD 4 Value.vnan = Value.vnum M ∧
          Value.vnum m ∈ groupVals 0 1 2 3 df3Ex.rows (outKey row) ∧
          Value.vnum M ∈ groupVals 0 1 2 3 df3Ex.rows (outKey row) ∧
          ∀ v ∈ groupVals 0 1 2 3 df3Ex.rows (outKey row),
            ∃ n : Int, v = Value.vnum n ∧ m ≤ n ∧ n ≤ M) :=
  ⟨⟨by decide, by decide, by decide, by decide, by decide, by decide, by decide⟩,
    c1_grouping_amended srcEx trgEx dfEx df3Ex outEx 0 1 2 3 (by decide) (by decide)
      (by decide) (by decide) (by decide) (by decide) (by decide)⟩

/-- Whether a cell holds a string (the cells `query`'s `>=` cannot compare
against a numeric threshold). -/
def isStrCell : Value → Bool
  | .vstr _ => true
  | _ => false

theorem filterYearRows_total {iy : Nat} {t : Int} :
    ∀ {rs : List (List Value)},
      (∀ row ∈ rs, isStrCell (row.getD iy Value.vnan) = false) →
      ∃ kept, filterYearRows iy t rs = .ok kept := by
  intro rs
  induction rs with
  | nil => intro _; exact ⟨[], rfl⟩
  | cons row rest ih =>
    intro hall
    obtain ⟨kept, hk⟩ := ih (fun r hr => hall r (List.mem_cons_of_mem _ hr))
    cases hy : row.getD iy Value.vnan with
    | vnum n =>
      exact ⟨if t ≤ n then row :: kept else kept, by simp only [filterYearRows, hy, hk]⟩
    | vnan => exact ⟨kept, by simp only [filterYearRows, hy, hk]⟩
    | vstr s =>
      have hs := hall row (List.mem_cons_self _ _)
      rw [hy] at hs
      exact absurd hs (by simp [isStrCell])

theorem projectColumns_total {srcCols : List String} {df : Relation}
    (hsub : ∀ c ∈ srcCols, c ∈ df.columns)
    (hrect : ∀ row ∈ df.rows, row.length = df.columns.length) :
    ∃ (idxs : List Nat) (rows1 : List (List Value)),
      mapME (lookupIdx df.columns) srcCols = .ok idxs ∧
      projectColumns srcCols df = .ok ⟨srcCols, rows1⟩ ∧
      List.Forall₂ (fun row row1 => mapME (projectCell row) idxs = .ok row1) df.rows rows1 := by
  obtain ⟨idxs, hidxs⟩ :=
    mapME_ok_of_forall (fun c hc => by
      obtain ⟨i, hi, _, _⟩ := lookupIdx_ok_of_mem (hsub c hc)
      exact ⟨i, hi⟩)
  have hforidx := mapME_ok_forall2 hidxs
  have hlt : ∀ i ∈ idxs, i < df.columns.length := by
    intro i hi
    obtain ⟨c, _, hok⟩ := forall2_mem_right hforidx i hi
    exact (lookupIdx_ok_lt hok).1
  have hinner : ∀ row ∈ df.rows, ∃ row1, mapME (projectCell row) idxs = .ok row1 := by
    intro row hrow
    apply mapME_ok_of_forall
    intro i hi
    have hilt : i < row.length := by
      rw [hrect row hrow]
      exact hlt i hi
    refine ⟨row.get ⟨i, hilt⟩, ?_⟩
    simp [projectCell, List.get?_eq_getElem?, List.getElem?_eq_getElem hilt]
  obtain ⟨rows1, hrows1⟩ := mapME_ok_of_forall hinner
  exact ⟨idxs, rows1, hidxs, by simp only [projectColumns, hidxs, hrows1],
    mapME_ok_forall2 hrows1⟩

theorem getD_eq_some {α : Type} {l : List α} {i : Nat} {x : α} (d : α)
    (h : l[i]? = some x) : l.getD i d = x := by
  simp [List.getD, List.get?_eq_getElem?, h]

theorem exists_cell_of_lt {α : Type} {l : List α} {i : Nat} (h : i < l.length) :
    ∃ x, l[i]? = some x :=
  ⟨_, List.getElem?_eq_getElem h⟩

/-- Totality of the transform on well-formed input: when the relation is
non-empty, every configured source column is present, the four role columns
are among the configured columns, the year-filter string parses as a numeric
literal, the rows are rectangular, and no year cell holds a string, the
transform reaches the end and succeeds. -/
theorem transform_report1_total (src : DewpSourceConfig) (trg : DewpTargetConfig)
    (df : Relation) (jy : Nat) (t : Int)
    (hne : df.isEmpty = false)
    (hsub : ∀ c ∈ src.src_columns, c ∈ df.columns)
    (hyin : src.src_col_year ∈ src.src_columns)
    (hain : src.src_col_industry_aggregation_knzsioc ∈ src.src_columns)
    (hcin : src.src_col_industry_code_nzsioc ∈ src.src_columns)
    (hvin : src.src_col_value ∈ src.src_columns)
    (ht : parseIntLit src.src_col_year_filter = some t)
    (hrect : ∀ row ∈ df.rows, row.length = df.columns.length)
    (hjy : lookupIdx df.columns src.src_col_year = .ok jy)
    (hyearnum : ∀ row ∈ df.rows, isStrCell (row.getD jy Value.vnan) = false) :
    ∃ out, transform_report1 src trg df = .ok out := by
  obtain ⟨idxs, rows1, hidxs, h1, hforrows⟩ := projectColumns_total hsub hrect
  have hforidx := mapME_ok_forall2 hidxs
  have hlen_idxs : src.src_columns.length = idxs.length := hforidx.length_eq
  obtain ⟨iv1, hv1, hvlt, hvget⟩ := lookupIdx_ok_of_mem hvin
  obtain ⟨iy1, hy1, hylt, hyget⟩ := lookupIdx_ok_of_mem hyin
  obtain ⟨ia1, ha1, _, _⟩ := lookupIdx_ok_of_mem hain
  obtain ⟨ic1, hc1, _, _⟩ := lookupIdx_ok_of_mem hcin
  have h2 : coerceValueColumn src.src_col_value ⟨src.src_columns, rows1⟩ =
      .ok ⟨src.src_columns,
        rows1.map (fun row1 => row1.set iv1 (coerceCell (row1.getD iv1 Value.vnan)))⟩ := by
    simp only [coerceValueColumn, hv1]
  have hrow1len : ∀ row1 ∈ rows1, row1.length = idxs.length := by
    intro row1 h
    obtain ⟨row, _, hmap⟩ := forall2_mem_right hforrows row1 h
    exact ((mapME_ok_forall2 hmap).length_eq).symm
  have hcoerced_val : ∀ row2 ∈ rows1.map
      (fun row1 => row1.set iv1 (coerceCell (row1.getD iv1 Value.vnan))),
      ∃ n, row2.getD iv1 Value.vnan = Value.vnum n := by
    intro row2 h
    rcases List.mem_map.1 h with ⟨row1, hr1, rfl⟩
    have hlt : iv1 < row1.length := by
      rw [hrow1len row1 hr1, ← hlen_idxs]
      exact hvlt
    refine ⟨(toNumericOpt (row1.getD iv1 Value.vnan)).getD 0, ?_⟩
    rw [getD_eq_some Value.vnan (List.getElem?_set_eq_of_lt _ hlt)]
    rfl
  have hyear2 : ∀ row2 ∈ rows1.map
      (fun row1 => row1.set iv1 (coerceCell (row1.getD iv1 Value.vnan))),
      isStrCell (row2.getD iy1 Value.vnan) = false := by
    intro row2 h
    rcases List.mem_map.1 h with ⟨row1, hr1, rfl⟩
    by_cases hiyv : iy1 = iv1
    · subst hiyv
      have hlt : iy1 < row1.length := by
        rw [hrow1len row1 hr1, ← hlen_idxs]
        exact hvlt
      rw [getD_eq_some Value.vnan (List.getElem?_set_eq_of_lt _ hlt)]
      rfl
    · have hne2 : iv1 ≠ iy1 := fun hh => hiyv hh.symm
      have hset : (row1.set iv1 (coerceCell (row1.getD iv1 Value.vnan))).getD iy1 Value.vnan
          = row1.getD iy1 Value.vnan := by
        simp [List.getD, List.get?_eq_getElem?, List.getElem?_set_ne hne2]
      rw [hset]
      obtain ⟨row, hrowmem, hmap⟩ := forall2_mem_right hforrows row1 hr1
      have hforcells := mapME_ok_forall2 hmap
      have hylt_idxs : iy1 < idxs.length := by
        rw [← hlen_idxs]
        exact hylt
      have hr1lt : iy1 < row1.length := by
        rw [hrow1len row1 hr1]
        exact hylt_idxs
      obtain ⟨cy, hcy⟩ := exists_cell_of_lt hylt
      have hcyy : cy = src.src_col_year := ((getD_eq_some "" hcy).symm).trans hyget
      obtain ⟨j1, hj1⟩ := exists_cell_of_lt hylt_idxs
      have hlook := forall2_get hforidx iy1 cy j1 hcy hj1
      rw [hcyy] at hlook
      have hj1jy : j1 = jy := by
        rw [hjy] at hlook
        exact (Except.ok.inj hlook).symm
      obtain ⟨v1, hv1cell⟩ := exists_cell_of_lt hr1lt
      have hcell := forall2_get hforcells iy1 j1 v1 hj1 hv1cell
      rw [hj1jy] at hcell
      have hjlt : jy < row.length := by
        rw [hrect row hrowmem]
        exact (lookupIdx_ok_lt hjy).1
      obtain ⟨v0, hv0⟩ := exists_cell_of_lt hjlt
      have hv0get : row.get? jy = some v0 := by
        rw [List.get?_eq_getElem?]
        exact hv0
      simp only [projectCell, hv0get] at hcell
      have hv01 : v0 = v1 := Except.ok.inj hcell
      have hnum := hyearnum row hrowmem
      rw [getD_eq_some Value.vnan hv0] at hnum
      rw [getD_eq_some Value.vnan hv1cell, ← hv01]
      exact hnum
  have hfilterE : ∃ kept, filterYearRows iy1 t
      (rows1.map (fun row1 => row1.set iv1 (coerceCell (row1.getD iv1 Value.vnan)))) =
        .ok kept :=
    filterYearRows_total hyear2
  obtain ⟨kept, hkept⟩ := hfilterE
  have h3 : filterYear src.src_col_year src.src_col_year_filter
      ⟨src.src_columns,
        rows1.map (fun row1 => row1.set iv1 (coerceCell (row1.getD iv1 Value.vnan)))⟩ =
      .ok ⟨src.src_columns, kept⟩ := by
    simp only [filterYear, hy1, ht, hkept]
  have hkept_sub : ∀ r ∈ kept, r ∈ rows1.map
      (fun row1 => row1.set iv1 (coerceCell (row1.getD iv1 Value.vnan))) := by
    rw [filterYearRows_ok hkept]
    intro r hr
    exact (List.mem_filter.1 hr).1
  have hkept_val : ∀ r ∈ kept, ∃ n, r.getD iv1 Value.vnan = Value.vnum n :=
    fun r hr => hcoerced_val r (hkept_sub r hr)
  have hagg : ∀ k ∈ ((kept.map (rowKey iy1 ia1 ic1)).filter keyNoNan).dedup,
      ∃ g, groupAgg iy1 ia1 ic1 iv1 kept k = .ok g := by
    intro k hk
    have hkmem : k ∈ kept.map (rowKey iy1 ia1 ic1) :=
      (List.mem_filter.1 (List.mem_dedup.1 hk)).1
    rcases List.mem_map.1 hkmem with ⟨r0, hr0, hkey⟩
    have hr0grp : r0 ∈ kept.filter (fun r => rowKey iy1 ia1 ic1 r = k) :=
      List.mem_filter.2 ⟨hr0, by simp [hkey]⟩
    have hvalsE : ∃ vals, mapME (cellNum iv1)
        (kept.filter (fun r => rowKey iy1 ia1 ic1 r = k)) = .ok vals := by
      apply mapME_ok_of_forall
      intro r hr
      obtain ⟨n, hn⟩ := hkept_val r (List.mem_filter.1 hr).1
      exact ⟨n, cellNum_ok.mpr hn⟩
    obtain ⟨vals, hvals⟩ := hvalsE
    have hlen : vals ≠ [] := by
      intro h0
      have hlen2 := (mapME_ok_forall2 hvals).length_eq
      rw [h0] at hlen2
      simp only [List.length_nil] at hlen2
      rw [List.length_eq_zero] at hlen2
      rw [hlen2] at hr0grp
      simp at hr0grp
    cases vals with
    | nil => exact absurd rfl hlen
    | cons v vs =>
      exact ⟨[k.1, k.2.1, k.2.2, .vnum (vs.foldl min v), .vnum (vs.foldl max v)],
        by simp only [groupAgg, hvals]⟩
  obtain ⟨grows, hgrows⟩ := mapME_ok_of_forall hagg
  have h4 : groupbyAgg src.src_col_year src.src_col_industry_aggregation_knzsioc
      src.src_col_industry_code_nzsioc src.src_col_value ⟨src.src_columns, kept⟩ =
      .ok ⟨[src.src_col_year, src.src_col_industry_aggregation_knzsioc,
        src.src_col_industry_code_nzsioc, "min_value", "max_value"], grows⟩ := by
    simp only [groupbyAgg, hy1, ha1, hc1, hv1, groupMinMaxRows, hgrows]
  refine ⟨renameMinMax trg.trg_col_min_value trg.trg_col_max_value
    ⟨[src.src_col_year, src.src_col_industry_aggregation_knzsioc,
      src.src_col_industry_code_nzsioc, "min_value", "max_value"], grows⟩, ?_⟩
  simp only [transform_report1, hne, Bool.false_eq_true, if_false, h1, h2, h3, h4]

/-- A relation that has every configured column but stores its years as
strings. -/
def dfStrYear : Relation :=
  ⟨["Year", "Agg", "Code", "Value"],
   [[.vstr "2016", .vstr "A", .vstr "X", .vstr "10"]]⟩

/-- Claim C6 fails as stated: the schema-mismatch error is not the only
exception path of the transform.  On `dfStrYear` every configured column is
present in the schema and the relation is non-empty, yet the transform
fails — the year filter's `>=` comparison between the string year cells and
the numeric threshold raises a `TypeError`, an error that is not a schema
mismatch. -/
theorem c6_cx_string_year :
    (∀ c ∈ srcEx.src_columns, c ∈ dfStrYear.columns) ∧
      dfStrYear.isEmpty = false ∧
      transform_report1 srcEx trgEx dfStrYear =
        .error "TypeError: >= not supported between str and int" := by
  decide

theorem lookupIdx_error_inversion {cols : List String} {c e : String}
    (h : lookupIdx cols c = .error e) : e = "KeyError: " ++ c ∧ c ∉ cols := by
  induction cols with
  | nil =>
    simp only [lookupIdx, Except.error.injEq] at h
    exact ⟨h.symm, by simp⟩
  | cons c0 rest ih =>
    simp only [lookupIdx] at h
    by_cases he0 : c0 = c
    · rw [if_pos he0] at h
      exact Except.noConfusion h
    · rw [if_neg he0] at h
      cases hr : lookupIdx rest c with
      | ok i =>
        simp only [hr] at h
        exact Except.noConfusion h
      | error e2 =>
        simp only [hr, Except.error.injEq] at h
        subst h
        obtain ⟨hee, hnm⟩ := ih hr
        refine ⟨hee, ?_⟩
        intro hmem
        rcases List.mem_cons.1 hmem with rfl | hmem2
        · exact he0 rfl
        · exact hnm hmem2

/-- Claim C6 as amended: on a non-empty relation, any configured column
missing from the schema makes the transform fail with the schema-mismatch
error itself — a `KeyError` naming a configured column that is absent from
the schema — and produce no output at all; this is however not the only
exception path — ill-typed data can also fail — and conversely, when every
configured column is present, the four role columns are configured, the
threshold parses, rows are rectangular, and no year cell holds a string, the
transform succeeds. -/
theorem c6_schema_mismatch_amended :
    (∀ (src : DewpSourceConfig) (trg : DewpTargetConfig) (df : Relation) (c : String),
        df.isEmpty = false → c ∈ src.src_columns → c ∉ df.columns →
          ∃ c', c' ∈ src.src_columns ∧ c' ∉ df.columns ∧
            transform_report1 src trg df = .error ("KeyError: " ++ c')) ∧
      (∀ (src : DewpSourceConfig) (trg : DewpTargetConfig) (df : Relation)
          (jy : Nat) (t : Int),
        df.isEmpty = false →
        (∀ c ∈ src.src_columns, c ∈ df.columns) →
        src.src_col_year ∈ src.src_columns →
        src.src_col_industry_aggregation_knzsioc ∈ src.src_columns →
        src.src_col_industry_code_nzsioc ∈ src.src_columns →
        src.src_col_value ∈ src.src_columns →
        parseIntLit src.src_col_year_filter = some t →
        (∀ row ∈ df.rows, row.length = df.columns.length) →
        lookupIdx df.columns src.src_col_year = .ok jy →
        (∀ row ∈ df.rows, isStrCell (row.getD jy Value.vnan) = false) →
        ∃ out, transform_report1 src trg df = .ok out) := by
  constructor
  · intro src trg df c hne hc hnc
    have hex : ∃ a ∈ src.src_columns, ∃ e, lookupIdx df.columns a = .error e :=
      ⟨c, hc, "KeyError: " ++ c, lookupIdx_error_of_not_mem hnc⟩
    obtain ⟨e, herr, a, ha, hae⟩ := mapME_exists_error hex
    obtain ⟨he, hanm⟩ := lookupIdx_error_inversion hae
    subst he
    refine ⟨a, ha, hanm, ?_⟩
    simp only [transform_report1, hne, Bool.false_eq_true, if_false, projectColumns, herr]
  · exact transform_report1_total

/-- A non-empty relation missing the configured `Code` column. -/
def dfMissingCode : Relation :=
  ⟨["Year", "Agg"], [[.vnum 2016, .vstr "A"]]⟩

theorem c6_schema_mismatch_amended_witness :
    (dfMissingCode.isEmpty = false ∧ "Code" ∈ srcEx.src_columns ∧
      "Code" ∉ dfMissingCode.columns ∧
      (∃ c', c' ∈ srcEx.src_columns ∧ c' ∉ dfMissingCode.columns ∧
        transform_report1 srcEx trgEx dfMissingCode = .error ("KeyError: " ++ c'))) ∧
      (∃ out, transform_report1 srcEx trgEx dfEx = .ok out) :=
  ⟨⟨by decide, by decide, by decide,
      c6_schema_mismatch_amended.1 srcEx trgEx dfMissingCode "Code"
        (by decide) (by decide) (by decide)⟩,
    c6_schema_mismatch_amended.2 srcEx trgEx dfEx 0 2015 (by decide) (by decide)
      (by decide) (by decide) (by decide) (by decide) (by decide) (by decide)
      (by decide) (by decide)⟩
